import Mathlib

/-!
Verification of the geoApi symbology module (src/symbology.js).

This file shallowly embeds the parts of `symbology.js` that the claims are
about:

* `searchRenderer` (and `getGraphicIcon` / `getGraphicSymbol`): matching a
  feature's attributes against an enhanced renderer,
* `enhanceRenderer`: attaching legend icons onto a renderer's branches,
* `generateWMSSymbology`: WMS legend-entry generation,
* `scrapeListRenderer` / `buildRendererToLegend`: renderer → legend conversion,
* `getZoomLevel`: the binary search over a LOD (level-of-detail) list.

Modelling conventions:

* JavaScript attribute values are modelled by `JSVal` (`null`, strings, and
  numbers).  Numbers are modelled as rationals: every finite IEEE double is a
  dyadic (hence finite-decimal) rational.  `NaN` and the infinities are
  modelled by the `none` case of `Option Rat` after `parseFloat`; inside
  `searchRenderer`'s classBreaks branch all three are observationally
  equivalent (each yields the default result), which is proved sound by
  tracing the source comparisons: `NaN < x`, `NaN > x`, `NaN <= x`,
  `+inf <= classMax` are all false, and `-inf < lower` is true.
  Attribute mappings are total (`String → JSVal`): a JS attribute lookup that
  produced `undefined` would make the source throw (calling `.toString()` on
  `undefined`), so such mappings are outside the embedding's domain.
* Asynchronous code is modelled by its data flow: legend items are taken as
  already-resolved data (their `.then` callbacks run in list order for
  same-tick resolved promises), a resolved promise value is the function's
  return value, and a promise resolving with `undefined` is `none`.
* Rendered SVG artifacts are modelled by `SvgCode`; the empty container built
  by `svgjs(element).size(s, s).svg()` is `SvgCode.emptyContainer s`, and the
  WMS container (which additionally carries a viewbox and an optionally drawn
  image) is `SvgCode.wmsContainer`.  ESRI symbol objects are an abstract type
  parameter `σ`; actual vector drawing (DOM measurement, patterns, ...) is
  outside the claims and therefore abstracted as a function parameter where a
  drawing result is needed (`rast` in the legend-adapter functions).
* The `while` loop of `getZoomLevel` is modelled with explicit fuel; `none`
  means the loop did not terminate within the given number of iterations.
-/

set_option maxHeartbeats 1000000

/-! ### Constants (top of src/symbology.js) -/

def SIMPLE : String := "simple"

def UNIQUE_VALUE : String := "uniqueValue"

def CLASS_BREAKS : String := "classBreaks"

def CONTAINER_SIZE : Nat := 32

def CONTENT_SIZE : Nat := 24

def CONTENT_IMAGE_SIZE : Nat := 28

def CONTAINER_CENTER : Nat := CONTAINER_SIZE / 2

def CONTENT_PADDING : Nat := (CONTAINER_SIZE - CONTENT_SIZE) / 2

/-! ### SVG artifacts and JS values -/

/-- A generated SVG artifact.  `emptyContainer s` models
`svgjs(element).size(s, s).svg()` (the blank fallback in `searchRenderer`);
`wmsContainer` models the WMS drawing surface with its viewbox and an
optionally rendered image; `code` models any other serialized markup. -/
inductive SvgCode where
  | emptyContainer (size : Nat)
  | wmsContainer (size : Nat) (viewW viewH : Nat) (image : Option String)
  | code (s : String)
deriving DecidableEq, Repr

/-- A JavaScript attribute value: `null`, a string, or a number (modelled as a
rational; every finite IEEE double is a finite-decimal rational). -/
inductive JSVal where
  | vNull
  | vStr (s : String)
  | vNum (q : Rat)
deriving DecidableEq, Repr

/-- Left-pad a digit string with zeros to length `k`. -/
def padZeroLeft (s : String) (k : Nat) : String :=
  String.mk (List.replicate (k - s.length) '0') ++ s

/-- JS `Number.prototype.toString` on the model.  Integers print as in JS; a
non-integral rational whose denominator divides a power of ten prints as its
exact finite decimal expansion (the model analogue of JS's shortest round-trip
decimal).  Rationals with any other denominator are not values of IEEE doubles
and get a fallback rendering. -/
def ratToJSString (q : Rat) : String :=
  if q.den = 1 then toString q.num
  else
    match (List.range (q.den + 1)).find? (fun k => 10 ^ k % q.den == 0) with
    | some k =>
      let sign := if q.num < 0 then "-" else ""
      let scaled := q.num.natAbs * 10 ^ k / q.den
      let ip := scaled / 10 ^ k
      let fp := scaled % 10 ^ k
      sign ++ toString ip ++ "." ++ padZeroLeft (toString fp) k
    | none => toString q

/-- JS string conversion, as used by `'' + value` and string concatenation:
`null` becomes the text `"null"`, strings stay themselves, numbers print via
`ratToJSString`. -/
def jsToString : JSVal → String
  | JSVal.vNull => "null"
  | JSVal.vStr s => s
  | JSVal.vNum q => ratToJSString q

/-- JS truthiness of an optional string (`undefined` and `""` are falsy). -/
def truthy : Option String → Bool
  | none => false
  | some s => !(s == "")

/-- Parse a digit run: accumulated value, number of digits consumed, rest. -/
def parseDigitsAux : List Char → Nat → Nat → Nat × Nat × List Char
  | [], acc, k => (acc, k, [])
  | c :: cs, acc, k =>
    if c.isDigit then parseDigitsAux cs (acc * 10 + (c.toNat - 48)) (k + 1)
    else (acc, k, c :: cs)

/-- JS `parseFloat` on a string: skip leading whitespace, optional sign,
digits with optional fraction and optional exponent; the longest valid prefix
is used and `none` (NaN) is returned when no digits were consumed.
(`"Infinity"` also maps to `none`; see the module comment for why NaN and the
infinities are interchangeable inside `searchRenderer`.) -/
def strParseFloat (s : String) : Option Rat :=
  let cs := s.data.dropWhile (fun c => c == ' ' || c == '\t' || c == '\n' || c == '\r')
  let signAndRest : Int × List Char :=
    match cs with
    | '-' :: r => (-1, r)
    | '+' :: r => (1, r)
    | _ => (1, cs)
  let ipParsed := parseDigitsAux signAndRest.2 0 0
  let ip := ipParsed.1
  let ipCount := ipParsed.2.1
  let rest1 := ipParsed.2.2
  let fracParsed : Nat × Nat × List Char :=
    match rest1 with
    | '.' :: r => parseDigitsAux r 0 0
    | _ => (0, 0, rest1)
  let fp := fracParsed.1
  let fpCount := fracParsed.2.1
  let rest2 := fracParsed.2.2
  if ipCount = 0 ∧ fpCount = 0 then none
  else
    let mantissa : Rat := (ip : Rat) + (fp : Rat) / ((10 ^ fpCount : Nat) : Rat)
    let expVal : Int :=
      match rest2 with
      | 'e' :: r | 'E' :: r =>
        let es : Int × List Char :=
          match r with
          | '-' :: r2 => (-1, r2)
          | '+' :: r2 => (1, r2)
          | _ => (1, r)
        let evParsed := parseDigitsAux es.2 0 0
        if evParsed.2.1 = 0 then 0 else es.1 * (evParsed.1 : Int)
      | _ => 0
    some ((signAndRest.1 : Rat) * mantissa * (10 : Rat) ^ expVal)

/-- JS `parseFloat` applied to an attribute value (`parseFloat(null)` is NaN,
numbers pass through, strings are parsed). -/
def jsParseFloat : JSVal → Option Rat
  | JSVal.vNull => none
  | JSVal.vNum q => some q
  | JSVal.vStr s => strParseFloat s

/-! ### Renderer data model (server JSON form, after optional enhancement) -/

/-- One branch of a uniqueValue renderer (`uniqueValueInfos` entry). -/
structure UVInfo (σ : Type) where
  value : String := ""
  label : String := ""
  symbol : Option σ := none
  svgcode : Option SvgCode := none
deriving DecidableEq, Repr

/-- One branch of a classBreaks renderer (`classBreakInfos` entry). -/
structure CBInfo (σ : Type) where
  classMaxValue : Rat := 0
  label : String := ""
  symbol : Option σ := none
  svgcode : Option SvgCode := none
deriving DecidableEq, Repr

/-- An ESRI renderer object in server JSON form, with the optional `svgcode` /
`defaultsvgcode` fields added by `enhanceRenderer`.  A JS renderer is a single
object carrying whichever fields its `type` uses; fields irrelevant to the
`type` simply go unread, and `none` models an absent (`undefined`) field. -/
structure Renderer (σ : Type) where
  type : String := ""
  label : String := ""
  svgcode : Option SvgCode := none
  symbol : Option σ := none
  field1 : String := ""
  field2 : Option String := none
  field3 : Option String := none
  uniqueValueInfos : List (UVInfo σ) := []
  field : String := ""
  minValue : Rat := 0
  classBreakInfos : List (CBInfo σ) := []
  defaultsvgcode : Option SvgCode := none
  defaultSymbol : Option σ := none
  defaultLabel : Option String := none
deriving DecidableEq, Repr

/-- The `symbol` slot of a `searchRenderer` result: it starts as the empty
object literal, and an assignment from an absent renderer field makes it
`undefined` — JS distinguishes the two, so the model does as well. -/
inductive SymbolSlot (σ : Type) where
  | emptyObj
  | undef
  | val (s : σ)
deriving DecidableEq, Repr

/-- Convert an optional renderer field into the slot an assignment leaves. -/
def SymbolSlot.ofOption {σ : Type} : Option σ → SymbolSlot σ
  | none => SymbolSlot.undef
  | some s => SymbolSlot.val s

/-- Result of `searchRenderer`: `{ svgcode, symbol }`. -/
structure SearchResult (σ : Type) where
  svgcode : SvgCode
  symbol : SymbolSlot σ
deriving DecidableEq, Repr

/-! ### searchRenderer (src/symbology.js lines 89-171) -/

/-- The composite `graphicKey` built in the UNIQUE_VALUE case of
`searchRenderer`: field 1's value with `null` mapped to `''` and non-strings
stringified, then `', ' + attributes[field2]` when `field2` is truthy and,
nested inside, `', ' + attributes[field3]` when `field3` is truthy. -/
def uvGraphicKey {σ : Type} (attributes : String → JSVal) (renderer : Renderer σ) : String :=
  let graphicKey :=
    match attributes renderer.field1 with
    | JSVal.vNull => ""
    | JSVal.vStr s => s
    | JSVal.vNum q => ratToJSString q
  if truthy renderer.field2 then
    let graphicKey2 := graphicKey ++ ", " ++ jsToString (attributes (renderer.field2.getD ""))
    if truthy renderer.field3 then
      graphicKey2 ++ ", " ++ jsToString (attributes (renderer.field3.getD ""))
    else graphicKey2
  else graphicKey

/-- The `classBreakInfos.find((cbi, index) => gVal > minSplits[index] && gVal
<= cbi.classMaxValue)` of the CLASS_BREAKS case: `prev` is `minSplits[index]`,
i.e. `lower - 1` for the first branch and the previous branch's
`classMaxValue` afterwards (`minSplits` is the maxima list with `lower - 1`
spliced in front). -/
def cbFind {σ : Type} (gVal : Rat) : Rat → List (CBInfo σ) → Option (CBInfo σ)
  | _, [] => none
  | prev, cbi :: rest =>
    if prev < gVal ∧ gVal ≤ cbi.classMaxValue then some cbi
    else cbFind gVal cbi.classMaxValue rest

/-- The `switch (renderer.type)` body of `searchRenderer`: the `svgcode` (still
possibly `undefined`) and `symbol` variables right before the final
blank-image substitution. -/
def searchRendererRaw {σ : Type} (attributes : String → JSVal) (renderer : Renderer σ) :
    Option SvgCode × SymbolSlot σ :=
  if renderer.type = SIMPLE then
    (renderer.svgcode, SymbolSlot.ofOption renderer.symbol)
  else if renderer.type = UNIQUE_VALUE then
    let graphicKey := uvGraphicKey attributes renderer
    match renderer.uniqueValueInfos.find? (fun uvi => uvi.value == graphicKey) with
    | some uvi => (uvi.svgcode, SymbolSlot.ofOption uvi.symbol)
    | none => (renderer.defaultsvgcode, SymbolSlot.ofOption renderer.defaultSymbol)
  else if renderer.type = CLASS_BREAKS then
    match jsParseFloat (attributes renderer.field) with
    | none => (renderer.defaultsvgcode, SymbolSlot.ofOption renderer.defaultSymbol)
    | some gVal =>
      if gVal < renderer.minValue then
        (renderer.defaultsvgcode, SymbolSlot.ofOption renderer.defaultSymbol)
      else
        match cbFind gVal (renderer.minValue - 1) renderer.classBreakInfos with
        | some cbi => (cbi.svgcode, SymbolSlot.ofOption cbi.symbol)
        | none => (renderer.defaultsvgcode, SymbolSlot.ofOption renderer.defaultSymbol)
  else
    (none, SymbolSlot.emptyObj)

/-- `searchRenderer`: run the switch, then replace an `undefined` `svgcode`
with the empty `CONTAINER_SIZE`-sized svg graphic. -/
def searchRenderer {σ : Type} (attributes : String → JSVal) (renderer : Renderer σ) :
    SearchResult σ :=
  let res := searchRendererRaw attributes renderer
  { svgcode := res.1.getD (SvgCode.emptyContainer CONTAINER_SIZE), symbol := res.2 }

/-- `getGraphicIcon`. -/
def getGraphicIcon {σ : Type} (attributes : String → JSVal) (renderer : Renderer σ) : SvgCode :=
  (searchRenderer attributes renderer).svgcode

/-- `getGraphicSymbol`. -/
def getGraphicSymbol {σ : Type} (attributes : String → JSVal) (renderer : Renderer σ) :
    SymbolSlot σ :=
  (searchRenderer attributes renderer).symbol

/-- The result `searchRenderer` produces when it falls back to the renderer's
default branch (icon patched to the empty container when unset). -/
def rendererDefaultResult {σ : Type} (renderer : Renderer σ) : SearchResult σ :=
  { svgcode := renderer.defaultsvgcode.getD (SvgCode.emptyContainer CONTAINER_SIZE)
    symbol := SymbolSlot.ofOption renderer.defaultSymbol }

/-- The result `searchRenderer` produces for a matched uniqueValue branch. -/
def uvBranchResult {σ : Type} (uvi : UVInfo σ) : SearchResult σ :=
  { svgcode := uvi.svgcode.getD (SvgCode.emptyContainer CONTAINER_SIZE)
    symbol := SymbolSlot.ofOption uvi.symbol }

/-- The result `searchRenderer` produces for a matched classBreaks branch. -/
def cbBranchResult {σ : Type} (cbi : CBInfo σ) : SearchResult σ :=
  { svgcode := cbi.svgcode.getD (SvgCode.emptyContainer CONTAINER_SIZE)
    symbol := SymbolSlot.ofOption cbi.symbol }

/-- Modelled from the spec's wording of the composite key ("build a composite
key from field 1 (stringified; null becomes empty string), concatenated with
`", "` + field 2 and `", "` + field 3 when those fields are configured" —
field 3 being configurable only in addition to field 2): used to compare the
spec's description against the key `searchRenderer` actually builds. -/
def specCompositeKey {σ : Type} (attributes : String → JSVal) (renderer : Renderer σ) : String :=
  let part1 :=
    match attributes renderer.field1 with
    | JSVal.vNull => ""
    | v => jsToString v
  let part2 :=
    if truthy renderer.field2 then ", " ++ jsToString (attributes (renderer.field2.getD ""))
    else ""
  let part3 :=
    if truthy renderer.field2 && truthy renderer.field3 then
      ", " ++ jsToString (attributes (renderer.field3.getD ""))
    else ""
  part1 ++ part2 ++ part3

/-! ### enhanceRenderer (src/symbology.js lines 31-79) -/

/-- A resolved legend item: label and its rendered svg code.  In the source
these arrive as promises (`legend.layers[0].legend`); the model takes the
resolved data, in list order (the order the `.then` callbacks run for
same-tick resolved promises). -/
structure LegendData where
  label : String := ""
  svgcode : SvgCode := SvgCode.code ""
deriving DecidableEq, Repr

/-- One store into the `legendLookup` object: `legendLookup[data.label] =
data.svgcode`. -/
def legendUpd (lookup : String → Option SvgCode) (item : LegendData) :
    String → Option SvgCode :=
  fun lbl => if lbl = item.label then some item.svgcode else lookup lbl

/-- The `legendLookup` quick-lookup object, filled by one store per legend
item; a later item with the same label overwrites an earlier one. -/
def buildLegendLookup (legendList : List LegendData) : String → Option SvgCode :=
  legendList.foldl legendUpd (fun _ => none)

/-- `enhanceRenderer`: attach `svgcode` / `defaultsvgcode` onto the renderer
from the legend lookup.  The returned `List String` collects `console.warn`
messages; the function being total models the promise always resolving once
the legend items have. -/
def enhanceRenderer {σ : Type} (renderer : Renderer σ) (legendList : List LegendData) :
    Renderer σ × List String :=
  let legendLookup := buildLegendLookup legendList
  if renderer.type = SIMPLE then
    ({ renderer with svgcode := legendLookup renderer.label }, [])
  else if renderer.type = UNIQUE_VALUE then
    ({ renderer with
        defaultsvgcode :=
          if truthy renderer.defaultLabel then legendLookup (renderer.defaultLabel.getD "")
          else renderer.defaultsvgcode
        uniqueValueInfos :=
          renderer.uniqueValueInfos.map fun uvi =>
            { uvi with svgcode := legendLookup uvi.label } }, [])
  else if renderer.type = CLASS_BREAKS then
    ({ renderer with
        defaultsvgcode :=
          if truthy renderer.defaultLabel then legendLookup (renderer.defaultLabel.getD "")
          else renderer.defaultsvgcode
        classBreakInfos :=
          renderer.classBreakInfos.map fun cbi =>
            { cbi with svgcode := legendLookup cbi.label } }, [])
  else
    (renderer, ["encountered unsupported renderer type: " ++ renderer.type])

/-! ### generateWMSSymbology (src/symbology.js lines 206-237) -/

/-- The `symbologyItem` of `generateWMSSymbology`. -/
structure WMSLegendItem where
  name : String := ""
  svgcode : Option SvgCode := none
deriving DecidableEq, Repr

/-- `generateWMSSymbology`.  `loadImage` models the
`convertImagetoDataURL`/`svgDrawImage` pipeline, returning the loader's
width and height on success.  The `Except.error` arm models the `.catch`
handler, which sets `symbologyItem.svgcode` but does not return the item —
so the promise resolves with `undefined`, i.e. `none`. -/
def generateWMSSymbology (name : String) (imageUri : Option String)
    (loadImage : String → Except String (Nat × Nat)) : Option WMSLegendItem :=
  if truthy imageUri then
    match loadImage (imageUri.getD "") with
    | Except.ok wh =>
      some { name := name
             svgcode := some (SvgCode.wmsContainer CONTAINER_SIZE wh.1 wh.2 imageUri) }
    | Except.error _ => none
  else
    some { name := name, svgcode := some (SvgCode.wmsContainer CONTAINER_SIZE 0 0 none) }

/-! ### scrapeListRenderer / buildRendererToLegend (src/symbology.js lines 635-687) -/

/-- `symbolToLegend`, with the actual vector drawing abstracted into `rast`:
the source resolves to `{ label, svgcode: draw.svg() }` where the drawing
depends only on the symbol. -/
def symbolToLegendM {σ α : Type} (rast : Option σ → α) (symbol : Option σ) (label : String) :
    String × α :=
  (label, rast symbol)

/-- `scrapeListRenderer`: one legend entry per child, plus one appended entry
for the default symbol when the renderer has one (label `defaultLabel || ''`). -/
def scrapeListRendererM {σ α : Type} (rast : Option σ → α) (renderer : Renderer σ)
    (childList : List (Option σ × String)) : List (String × α) :=
  let legend := childList.map fun child => symbolToLegendM rast child.1 child.2
  match renderer.defaultSymbol with
  | some ds => legend ++ [symbolToLegendM rast (some ds) (renderer.defaultLabel.getD "")]
  | none => legend

/-- One layer of the legend shell built by `buildRendererToLegend`. -/
structure LegendLayerM (α : Type) where
  layerId : Nat
  legend : List (String × α)
deriving DecidableEq, Repr

/-- The legend shell `{ layers: [{ layerId, legend }] }`. -/
structure LegendObjM (α : Type) where
  layers : List (LegendLayerM α)
deriving DecidableEq, Repr

/-- The `rendererToLegend` closure returned by `buildRendererToLegend`. -/
def rendererToLegend {σ α : Type} (rast : Option σ → α) (renderer : Renderer σ) (index : Nat) :
    LegendObjM α :=
  { layers := [{ layerId := index
                 legend :=
                   if renderer.type = SIMPLE then
                     [symbolToLegendM rast renderer.symbol renderer.label]
                   else if renderer.type = UNIQUE_VALUE then
                     scrapeListRendererM rast renderer
                       (renderer.uniqueValueInfos.map fun uvi => (uvi.symbol, uvi.label))
                   else if renderer.type = CLASS_BREAKS then
                     scrapeListRendererM rast renderer
                       (renderer.classBreakInfos.map fun cbi => (cbi.symbol, cbi.label))
                   else [] }] }

/-- The (symbol, label) branch list `rendererToLegend` feeds to
`scrapeListRenderer` for a uniqueValue or classBreaks renderer. -/
def branchesOf {σ : Type} (renderer : Renderer σ) : List (Option σ × String) :=
  if renderer.type = UNIQUE_VALUE then
    renderer.uniqueValueInfos.map fun uvi => (uvi.symbol, uvi.label)
  else
    renderer.classBreakInfos.map fun cbi => (cbi.symbol, cbi.label)

/-! ### getZoomLevel (src/symbology.js lines 826-851) -/

/-- One LOD (level of detail) entry. -/
structure Lod where
  scale : Rat
deriving DecidableEq, Repr

/-- The loop's test `lods[currentLod].scale >= scaleLimit`.  (An out-of-range
index — reachable in JS only for single-entry lists, where the source throws —
is mapped to the else-branch; no claim reaches it.) -/
def qualB (lods : List Lod) (scaleLimit : Rat) (i : Nat) : Bool :=
  match lods.get? i with
  | some lod => decide (scaleLimit ≤ lod.scale)
  | none => false

/-- The `while (!found)` body of `getZoomLevel`, with explicit fuel: update
`lowLod`/`highLod` from the test at `currentLod`, recompute `currentLod` as
the floor midpoint, stop when `highLod === lowLod + 1`. -/
def zoomLoop (lods : List Lod) (scaleLimit : Rat) :
    Nat → Nat → Nat → Nat → Option Nat
  | 0, _lowLod, _highLod, _currentLod => none
  | fuel + 1, lowLod, highLod, currentLod =>
    let lowLod2 := if qualB lods scaleLimit currentLod then currentLod else lowLod
    let highLod2 := if qualB lods scaleLimit currentLod then highLod else currentLod
    let currentLod2 := (highLod2 + lowLod2) / 2
    if highLod2 = lowLod2 + 1 then some currentLod2
    else zoomLoop lods scaleLimit fuel lowLod2 highLod2 currentLod2

/-- `getZoomLevel`: early return `lods.length - 1` when `maxScale === 0`,
otherwise the binary-search loop starting from `lowLod = 0`,
`highLod = lods.length - 1`, `currentLod = ceil(lods.length / 2)`.  The
result is an `Int` because JS returns `-1` for an empty list. -/
def getZoomLevel (lods : List Lod) (maxScale : Rat) (fuel : Nat) : Option Int :=
  if maxScale = 0 then some ((lods.length : Int) - 1)
  else
    (zoomLoop lods maxScale fuel 0 (lods.length - 1) ((lods.length + 1) / 2)).map
      (fun i => (i : Int))

/-! ### Helper lemmas -/

/-- The three renderer type strings are pairwise distinct. -/
theorem uv_ne_simple : UNIQUE_VALUE ≠ SIMPLE := by decide

theorem cb_ne_simple : CLASS_BREAKS ≠ SIMPLE := by decide

theorem cb_ne_uv : CLASS_BREAKS ≠ UNIQUE_VALUE := by decide

/-! ### Claim C4 -/

/-- C4: `searchRenderer` always returns a `{svgcode, symbol}` pair; the
returned icon is the raw switch result with `undefined` replaced by the empty
32×32 container (so `getGraphicIcon` callers never observe an undefined
icon), and a renderer whose type is none of the three recognized kinds yields
the empty icon together with the empty symbol object. -/
theorem claim_C4 {σ : Type} (attributes : String → JSVal) (renderer : Renderer σ) :
    getGraphicIcon attributes renderer =
      ((searchRendererRaw attributes renderer).1).getD (SvgCode.emptyContainer 32) ∧
    ((searchRendererRaw attributes renderer).1 = none →
      getGraphicIcon attributes renderer = SvgCode.emptyContainer 32) ∧
    (renderer.type ≠ SIMPLE → renderer.type ≠ UNIQUE_VALUE → renderer.type ≠ CLASS_BREAKS →
      searchRenderer attributes renderer =
        { svgcode := SvgCode.emptyContainer 32, symbol := SymbolSlot.emptyObj }) := by
  refine ⟨rfl, ?_, ?_⟩
  · intro h
    simp [getGraphicIcon, searchRenderer, h, CONTAINER_SIZE]
  · intro h1 h2 h3
    simp [searchRenderer, searchRendererRaw, h1, h2, h3, CONTAINER_SIZE]

theorem claim_C4_witness :
    (({ type := "heatmap" } : Renderer Nat).type ≠ SIMPLE ∧
      ({ type := "heatmap" } : Renderer Nat).type ≠ UNIQUE_VALUE ∧
      ({ type := "heatmap" } : Renderer Nat).type ≠ CLASS_BREAKS) ∧
    searchRenderer (fun _ => JSVal.vNull) ({ type := "heatmap" } : Renderer Nat) =
      { svgcode := SvgCode.emptyContainer 32, symbol := SymbolSlot.emptyObj } :=
  ⟨⟨by decide, by decide, by decide⟩,
    (claim_C4 (fun _ => JSVal.vNull) ({ type := "heatmap" } : Renderer Nat)).2.2
      (by decide) (by decide) (by decide)⟩

/-! ### Claim C6 -/

/-- C6: with a target scale of exactly 0, `getZoomLevel` returns the last
index `length - 1` (the "no limit" sentinel) for every LOD list, regardless
of fuel; in particular the 4-entry example returns 3. -/
theorem claim_C6 (lods : List Lod) (fuel : Nat) :
    getZoomLevel lods 0 fuel = some ((lods.length : Int) - 1) ∧
    getZoomLevel [⟨1000⟩, ⟨500⟩, ⟨250⟩, ⟨100⟩] 0 fuel = some 3 := by
  constructor
  · simp [getZoomLevel]
  · simp [getZoomLevel]

/-! ### Claim C7 -/

/-- C7 (code bug): `generateWMSSymbology` resolves with a legend entry when no
image is supplied and when the image loads, but when image loading fails the
`.catch` handler does not return the symbology item, so the promise resolves
with `undefined` (`none`) — not with a legend entry holding an empty icon as
claimed (and as the handler's own "returning empty" log message intends). -/
theorem claim_C7 :
    generateWMSSymbology "layer" (some "http://example.com/x.png")
        (fun _ => Except.error "load failed") = none ∧
    generateWMSSymbology "layer" none (fun _ => Except.error "unused") =
      some { name := "layer", svgcode := some (SvgCode.wmsContainer 32 0 0 none) } ∧
    generateWMSSymbology "layer" (some "http://example.com/x.png")
        (fun _ => Except.ok (20, 10)) =
      some { name := "layer"
             svgcode := some
               (SvgCode.wmsContainer 32 20 10 (some "http://example.com/x.png")) } := by
  refine ⟨?_, rfl, ?_⟩ <;> rfl

/-! ### Claim C8 -/

/-- C8: for a renderer whose type is none of the three recognized kinds,
`enhanceRenderer` leaves the renderer unchanged (no icons attached) and logs
the unsupported-type warning; being a total function of the resolved legend
data, it models the promise resolving (never rejecting) for such a type. -/
theorem claim_C8 {σ : Type} (renderer : Renderer σ) (legendList : List LegendData)
    (h1 : renderer.type ≠ SIMPLE) (h2 : renderer.type ≠ UNIQUE_VALUE)
    (h3 : renderer.type ≠ CLASS_BREAKS) :
    enhanceRenderer renderer legendList =
      (renderer, ["encountered unsupported renderer type: " ++ renderer.type]) := by
  simp [enhanceRenderer, h1, h2, h3]

theorem claim_C8_witness :
    (({ type := "dotDensity" } : Renderer Nat).type ≠ SIMPLE ∧
      ({ type := "dotDensity" } : Renderer Nat).type ≠ UNIQUE_VALUE ∧
      ({ type := "dotDensity" } : Renderer Nat).type ≠ CLASS_BREAKS) ∧
    enhanceRenderer ({ type := "dotDensity" } : Renderer Nat)
        [{ label := "A", svgcode := SvgCode.code "a" }] =
      (({ type := "dotDensity" } : Renderer Nat),
        ["encountered unsupported renderer type: " ++
          ({ type := "dotDensity" } : Renderer Nat).type]) :=
  ⟨⟨by decide, by decide, by decide⟩,
    claim_C8 ({ type := "dotDensity" } : Renderer Nat)
      [{ label := "A", svgcode := SvgCode.code "a" }] (by decide) (by decide) (by decide)⟩

/-! ### Claim C10 -/

/-- The stringification of field 1's value at the top of the UNIQUE_VALUE
case: `null` maps to the empty string, other values to their JS string. -/
def uvField1Key {σ : Type} (attributes : String → JSVal) (renderer : Renderer σ) : String :=
  match attributes renderer.field1 with
  | JSVal.vNull => ""
  | JSVal.vStr s => s
  | JSVal.vNum q => ratToJSString q

/-- C10: only field 1's `null` is converted to the empty string; a `null`
value for field 2 (or field 3) is concatenated by JS string conversion and so
contributes the literal text `"null"` to the composite key. -/
theorem claim_C10 {σ : Type} (attributes : String → JSVal) (renderer : Renderer σ)
    (h2 : truthy renderer.field2 = true) :
    (attributes (renderer.field2.getD "") = JSVal.vNull → truthy renderer.field3 = false →
      uvGraphicKey attributes renderer = uvField1Key attributes renderer ++ ", null") ∧
    (truthy renderer.field3 = true → attributes (renderer.field3.getD "") = JSVal.vNull →
      uvGraphicKey attributes renderer =
        uvField1Key attributes renderer ++ ", " ++
          jsToString (attributes (renderer.field2.getD "")) ++ ", null") ∧
    (attributes renderer.field1 = JSVal.vNull → uvField1Key attributes renderer = "") := by
  refine ⟨?_, ?_, ?_⟩
  · intro hv h3
    simp only [uvGraphicKey, uvField1Key, jsToString, h2, h3, hv, if_true, if_false,
      Bool.false_eq_true, if_neg]
    rw [String.append_assoc]
    rfl
  · intro h3 hv
    simp only [uvGraphicKey, uvField1Key, jsToString, h2, h3, hv, if_true, if_false]
    rw [String.append_assoc]
    rfl
  · intro hv
    simp [uvField1Key, hv]

theorem claim_C10_witness :
    truthy ({ type := "uniqueValue", field1 := "f1", field2 := some "f2" } : Renderer Nat).field2
        = true ∧
    uvGraphicKey (fun f => if f = "f1" then JSVal.vStr "a" else JSVal.vNull)
        ({ type := "uniqueValue", field1 := "f1", field2 := some "f2" } : Renderer Nat) =
      uvField1Key (fun f => if f = "f1" then JSVal.vStr "a" else JSVal.vNull)
        ({ type := "uniqueValue", field1 := "f1", field2 := some "f2" } : Renderer Nat)
        ++ ", null" :=
  ⟨by decide,
    (claim_C10 (fun f => if f = "f1" then JSVal.vStr "a" else JSVal.vNull)
      ({ type := "uniqueValue", field1 := "f1", field2 := some "f2" } : Renderer Nat)
      (by decide)).1 (by decide) (by decide)⟩

/-! ### Claim C5 -/

/-- Folding legend stores over items none of which carry the label `L` leaves
the lookup at `L` unchanged. -/
theorem foldl_legendUpd_noMatch (l : List LegendData) :
    ∀ (m : String → Option SvgCode) (L : String), (∀ x ∈ l, x.label ≠ L) →
      (l.foldl legendUpd m) L = m L := by
  induction l with
  | nil => intro m L _; rfl
  | cons x xs ih =>
    intro m L h
    rw [List.foldl_cons, ih _ L (fun y hy => h y (List.mem_cons_of_mem _ hy))]
    have hx : x.label ≠ L := h x (List.mem_cons_self _ _)
    simp only [legendUpd]
    rw [if_neg (fun hh => hx hh.symm)]

/-- C5: when the legend contains two entries with the same label, the
label→icon lookup keeps the later entry's icon — the lookup maps the shared
label to the svg code of the last entry carrying it — and every uniqueValue
branch with that label receives exactly that icon from `enhanceRenderer`. -/
theorem claim_C5 {σ : Type} (pre post : List LegendData) (e1 e2 : LegendData)
    (renderer : Renderer σ)
    (hcollide : e1 ∈ pre) (hlabel : e1.label = e2.label)
    (hpost : ∀ x ∈ post, x.label ≠ e2.label) :
    buildLegendLookup (pre ++ e2 :: post) e2.label = some e2.svgcode ∧
    (renderer.type = UNIQUE_VALUE →
      ∀ (i : Nat) (uvi : UVInfo σ),
        renderer.uniqueValueInfos[i]? = some uvi → uvi.label = e2.label →
        ∃ uvi2,
          (enhanceRenderer renderer (pre ++ e2 :: post)).1.uniqueValueInfos[i]? =
            some uvi2 ∧
          uvi2.svgcode = some e2.svgcode) := by
  have hlookup : buildLegendLookup (pre ++ e2 :: post) e2.label = some e2.svgcode := by
    unfold buildLegendLookup
    rw [List.foldl_append, List.foldl_cons, foldl_legendUpd_noMatch post _ _ hpost]
    simp [legendUpd]
  refine ⟨hlookup, ?_⟩
  intro htype i uvi hget huvlabel
  have hne : renderer.type ≠ SIMPLE := by rw [htype]; decide
  refine ⟨{ uvi with svgcode := buildLegendLookup (pre ++ e2 :: post) uvi.label }, ?_, ?_⟩
  · simp [enhanceRenderer, hne, htype, SIMPLE, UNIQUE_VALUE, List.getElem?_map, hget]
  · rw [huvlabel, hlookup]

theorem claim_C5_witness :
    (({ label := "A", svgcode := SvgCode.code "first" } : LegendData) ∈
        [({ label := "A", svgcode := SvgCode.code "first" } : LegendData)] ∧
      ({ label := "A", svgcode := SvgCode.code "first" } : LegendData).label =
        ({ label := "A", svgcode := SvgCode.code "second" } : LegendData).label) ∧
    buildLegendLookup
        ([{ label := "A", svgcode := SvgCode.code "first" }] ++
          { label := "A", svgcode := SvgCode.code "second" } :: [])
        ({ label := "A", svgcode := SvgCode.code "second" } : LegendData).label =
      some (SvgCode.code "second") :=
  ⟨⟨List.mem_cons_self _ _, rfl⟩,
    (claim_C5 [{ label := "A", svgcode := SvgCode.code "first" }] []
      { label := "A", svgcode := SvgCode.code "first" }
      { label := "A", svgcode := SvgCode.code "second" }
      ({ type := "uniqueValue" } : Renderer Nat)
      (List.mem_cons_self _ _) rfl (by intro x hx; cases hx)).1⟩

/-! ### Claim C9 -/

/-- C9: for a uniqueValue or classBreaks renderer, `rendererToLegend` emits
one legend entry per branch, in branch order, and appends exactly one entry
for the default symbol (labelled `defaultLabel || ''`) when a default symbol
is present. -/
theorem claim_C9 {σ α : Type} (rast : Option σ → α) (renderer : Renderer σ) (index : Nat)
    (h : renderer.type = UNIQUE_VALUE ∨ renderer.type = CLASS_BREAKS) :
    ∃ entries,
      (rendererToLegend rast renderer index).layers =
        [{ layerId := index, legend := entries }] ∧
      entries.length =
        (branchesOf renderer).length +
          (if renderer.defaultSymbol.isSome then 1 else 0) ∧
      (∀ i, i < (branchesOf renderer).length →
        entries[i]? =
          ((branchesOf renderer)[i]?).map (fun b => symbolToLegendM rast b.1 b.2)) ∧
      (∀ ds, renderer.defaultSymbol = some ds →
        entries.getLast? =
          some (symbolToLegendM rast (some ds) (renderer.defaultLabel.getD ""))) := by
  have hbody :
      (rendererToLegend rast renderer index).layers =
        [{ layerId := index
           legend := scrapeListRendererM rast renderer (branchesOf renderer) }] := by
    rcases h with htype | htype
    · simp [rendererToLegend, branchesOf, htype, SIMPLE, UNIQUE_VALUE, CLASS_BREAKS]
    · simp [rendererToLegend, branchesOf, htype, SIMPLE, UNIQUE_VALUE, CLASS_BREAKS]
  refine ⟨scrapeListRendererM rast renderer (branchesOf renderer), hbody, ?_, ?_, ?_⟩
  · unfold scrapeListRendererM
    cases renderer.defaultSymbol <;> simp
  · intro i hi
    unfold scrapeListRendererM
    cases renderer.defaultSymbol with
    | none => simp [List.getElem?_map]
    | some ds =>
      rw [List.getElem?_append_left (by simpa using hi)]
      simp [List.getElem?_map]
  · intro ds hds
    unfold scrapeListRendererM
    rw [hds]
    exact List.getLast?_concat _

def wRend9 : Renderer Nat :=
  { type := "uniqueValue"
    uniqueValueInfos := [{ value := "a", label := "A", symbol := some 7 }]
    defaultSymbol := some 9
    defaultLabel := some "Other" }

theorem claim_C9_witness :
    (wRend9.type = UNIQUE_VALUE ∨ wRend9.type = CLASS_BREAKS) ∧
    ∃ entries,
      (rendererToLegend (fun s => s) wRend9 4).layers =
        [{ layerId := 4, legend := entries }] ∧
      entries.length = (branchesOf wRend9).length + 1 ∧
      entries.getLast? = some ("Other", some 9) :=
  ⟨Or.inl rfl, by
    obtain ⟨entries, ha, hb, _, hd⟩ := claim_C9 (fun s => s) wRend9 4 (Or.inl rfl)
    exact ⟨entries, ha, by simpa using hb, by simpa [symbolToLegendM] using hd 9 rfl⟩⟩

/-! ### Claim C1 -/

/-- A successful `find?` returns the first match: some index holds the result
and every earlier index fails the predicate. -/
theorem find?_some_first {β : Type} (p : β → Bool) :
    ∀ (l : List β) (a : β), l.find? p = some a →
      ∃ i : Nat, l[i]? = some a ∧ p a = true ∧
        ∀ (j : Nat) (b : β), j < i → l[j]? = some b → p b = false := by
  intro l
  induction l with
  | nil => intro a h; simp at h
  | cons x xs ih =>
    intro a h
    by_cases hp : p x
    · rw [List.find?_cons_of_pos _ hp] at h
      obtain rfl : x = a := by injection h
      exact ⟨0, by simp, hp, fun j b hj _ => absurd hj (Nat.not_lt_zero j)⟩
    · rw [List.find?_cons_of_neg _ hp] at h
      obtain ⟨i, h1, h2, h3⟩ := ih a h
      refine ⟨i + 1, by simpa using h1, h2, ?_⟩
      intro j b hj hb
      cases j with
      | zero =>
        obtain rfl : x = b := by simpa using hb
        simpa using hp
      | succ k =>
        exact h3 k b (by omega) (by simpa using hb)

/-- The key built inside `searchRenderer` coincides with the spec's
description of the composite key. -/
theorem uvGraphicKey_eq_spec {σ : Type} (attributes : String → JSVal)
    (renderer : Renderer σ) :
    uvGraphicKey attributes renderer = specCompositeKey attributes renderer := by
  unfold uvGraphicKey specCompositeKey
  by_cases h2 : truthy renderer.field2 <;> by_cases h3 : truthy renderer.field3 <;>
    cases hv : attributes renderer.field1 <;>
      simp [h2, h3, hv, jsToString, String.append_assoc]

/-- C1: for a uniqueValue renderer, `searchRenderer` returns the icon and
symbol of the first branch whose stored `value` string-equals the composite
key (field 1 stringified with null becoming the empty string, `", "` + field 2
and `", "` + field 3 appended when configured); when no branch matches it
returns the renderer's default icon and symbol. -/
theorem claim_C1 {σ : Type} (attributes : String → JSVal) (renderer : Renderer σ)
    (htype : renderer.type = UNIQUE_VALUE) :
    (∃ (i : Nat) (uvi : UVInfo σ),
        renderer.uniqueValueInfos[i]? = some uvi ∧
        uvi.value = specCompositeKey attributes renderer ∧
        (∀ (j : Nat) (w : UVInfo σ), j < i → renderer.uniqueValueInfos[j]? = some w →
          w.value ≠ specCompositeKey attributes renderer) ∧
        searchRenderer attributes renderer = uvBranchResult uvi) ∨
    ((∀ uvi ∈ renderer.uniqueValueInfos,
        uvi.value ≠ specCompositeKey attributes renderer) ∧
      searchRenderer attributes renderer = rendererDefaultResult renderer) := by
  have hne : renderer.type ≠ SIMPLE := by rw [htype]; decide
  have hkey := uvGraphicKey_eq_spec attributes renderer
  cases hfind : renderer.uniqueValueInfos.find?
      (fun uvi => uvi.value == uvGraphicKey attributes renderer) with
  | some uvi =>
    left
    obtain ⟨i, h1, h2, h3⟩ := find?_some_first _ _ _ hfind
    refine ⟨i, uvi, h1, ?_, ?_, ?_⟩
    · rw [← hkey]
      simpa using h2
    · intro j w hj hw
      have := h3 j w hj hw
      rw [← hkey]
      simpa using this
    · simp [searchRenderer, searchRendererRaw, hne, htype, SIMPLE, UNIQUE_VALUE, hfind,
        uvBranchResult]
  | none =>
    right
    constructor
    · intro uvi hm
      have := List.find?_eq_none.mp hfind uvi hm
      rw [← hkey]
      simpa using this
    · simp [searchRenderer, searchRendererRaw, hne, htype, SIMPLE, UNIQUE_VALUE, hfind,
        rendererDefaultResult]

def wRend1 : Renderer Nat :=
  { type := "uniqueValue"
    field1 := "t"
    uniqueValueInfos := [{ value := "a", label := "A", symbol := some 7,
                           svgcode := some (SvgCode.code "sa") }]
    defaultSymbol := some 9 }

def wAttrs1 : String → JSVal := fun _ => JSVal.vStr "a"

theorem claim_C1_witness :
    wRend1.type = UNIQUE_VALUE ∧
    ((∃ (i : Nat) (uvi : UVInfo Nat),
        wRend1.uniqueValueInfos[i]? = some uvi ∧
        uvi.value = specCompositeKey wAttrs1 wRend1 ∧
        (∀ (j : Nat) (w : UVInfo Nat), j < i → wRend1.uniqueValueInfos[j]? = some w →
          w.value ≠ specCompositeKey wAttrs1 wRend1) ∧
        searchRenderer wAttrs1 wRend1 = uvBranchResult uvi) ∨
      ((∀ uvi ∈ wRend1.uniqueValueInfos,
          uvi.value ≠ specCompositeKey wAttrs1 wRend1) ∧
        searchRenderer wAttrs1 wRend1 = rendererDefaultResult wRend1)) :=
  ⟨rfl, claim_C1 wAttrs1 wRend1 rfl⟩

/-! ### Claim C2 -/

/-- Membership in `getLast?`. -/
theorem mem_of_getLast?_eq {β : Type} :
    ∀ (l : List β) (a : β), l.getLast? = some a → a ∈ l := by
  intro l
  induction l with
  | nil => intro a h; simp at h
  | cons x xs ih =>
    intro a h
    cases xs with
    | nil =>
      simp only [List.getLast?_singleton, Option.some.injEq] at h
      simp [h]
    | cons y ys =>
      rw [List.getLast?_cons_cons] at h
      exact List.mem_cons_of_mem _ (ih a h)

/-- In a list of branches strictly sorted by `classMaxValue`, every branch's
upper bound is at most the last branch's. -/
theorem le_getLast_max {σ : Type} :
    ∀ (l : List (CBInfo σ)),
      List.Pairwise (fun a b => a.classMaxValue < b.classMaxValue) l →
      ∀ c ∈ l, ∀ m, l.getLast? = some m → c.classMaxValue ≤ m.classMaxValue := by
  intro l
  induction l with
  | nil => intro _ c hc; cases hc
  | cons x xs ih =>
    intro hp c hc m hm
    cases xs with
    | nil =>
      simp only [List.getLast?_singleton, Option.some.injEq] at hm
      rcases List.mem_singleton.mp hc with rfl
      rw [← hm]
    | cons y ys =>
      rw [List.getLast?_cons_cons] at hm
      have hmem : m ∈ y :: ys := mem_of_getLast?_eq _ _ hm
      rcases List.mem_cons.mp hc with rfl | hc2
      · exact le_of_lt ((List.pairwise_cons.mp hp).1 m hmem)
      · exact ih (List.pairwise_cons.mp hp).2 c hc2 m hm

/-- With strictly ascending upper bounds all above `prev`, `cbFind` at a value
equal to some branch's upper bound returns exactly that branch. -/
theorem cbFind_mem_eq {σ : Type} (v : Rat) :
    ∀ (l : List (CBInfo σ)) (prev : Rat),
      List.Pairwise (fun a b => a.classMaxValue < b.classMaxValue) l →
      (∀ c ∈ l, prev < c.classMaxValue) →
      ∀ c ∈ l, v = c.classMaxValue → cbFind v prev l = some c := by
  intro l
  induction l with
  | nil => intro prev _ _ c hc; cases hc
  | cons x xs ih =>
    intro prev hp hprev c hc hv
    rcases List.mem_cons.mp hc with rfl | hc2
    · simp only [cbFind]
      rw [if_pos ⟨by rw [hv]; exact hprev c (List.mem_cons_self _ _), le_of_eq hv⟩]
    · have hlt : x.classMaxValue < c.classMaxValue := (List.pairwise_cons.mp hp).1 c hc2
      have hnot : ¬ (prev < v ∧ v ≤ x.classMaxValue) := by
        rintro ⟨_, hle⟩
        rw [hv] at hle
        exact absurd hle (not_le.mpr hlt)
      simp only [cbFind]
      rw [if_neg hnot]
      exact ih x.classMaxValue (List.pairwise_cons.mp hp).2
        (fun c2 hc3 => (List.pairwise_cons.mp hp).1 c2 hc3) c hc2 hv

/-- When the value exceeds every branch's upper bound, `cbFind` fails. -/
theorem cbFind_none_of_gt {σ : Type} (v : Rat) :
    ∀ (l : List (CBInfo σ)) (prev : Rat), (∀ c ∈ l, c.classMaxValue < v) →
      cbFind v prev l = none := by
  intro l
  induction l with
  | nil => intro prev _; rfl
  | cons x xs ih =>
    intro prev h
    have hnot : ¬ (prev < v ∧ v ≤ x.classMaxValue) := by
      rintro ⟨_, hle⟩
      exact absurd hle (not_le.mpr (h x (List.mem_cons_self _ _)))
    simp only [cbFind]
    rw [if_neg hnot]
    exact ih _ (fun c hc => h c (List.mem_cons_of_mem _ hc))

/-- C2: for a classBreaks renderer with branches strictly ascending by upper
bound and bounds at or above the minimum: a value strictly below the minimum
gives the default result; a value exactly equal to a branch's upper bound
gives that branch (intervals are right-closed, so never the next branch); a
value above the last branch's upper bound gives the default result. -/
theorem claim_C2 {σ : Type} (attributes : String → JSVal) (renderer : Renderer σ) (v : Rat)
    (htype : renderer.type = CLASS_BREAKS)
    (hattr : attributes renderer.field = JSVal.vNum v)
    (hsorted : List.Pairwise (fun a b => a.classMaxValue < b.classMaxValue)
      renderer.classBreakInfos)
    (hmin : ∀ c ∈ renderer.classBreakInfos, renderer.minValue ≤ c.classMaxValue) :
    (v < renderer.minValue →
      searchRenderer attributes renderer = rendererDefaultResult renderer) ∧
    (∀ c ∈ renderer.classBreakInfos, v = c.classMaxValue →
      searchRenderer attributes renderer = cbBranchResult c) ∧
    ((∀ m, renderer.classBreakInfos.getLast? = some m → m.classMaxValue < v) →
      searchRenderer attributes renderer = rendererDefaultResult renderer) := by
  have hne1 : renderer.type ≠ SIMPLE := by rw [htype]; decide
  have hne2 : renderer.type ≠ UNIQUE_VALUE := by rw [htype]; decide
  refine ⟨?_, ?_, ?_⟩
  · intro hlt
    simp [searchRenderer, searchRendererRaw, hne1, hne2, htype, SIMPLE, UNIQUE_VALUE,
      CLASS_BREAKS, hattr, jsParseFloat, hlt, rendererDefaultResult]
  · intro c hc hv
    have hnotlt : ¬ v < renderer.minValue := not_lt.mpr (by rw [hv]; exact hmin c hc)
    have hprev : ∀ c2 ∈ renderer.classBreakInfos,
        renderer.minValue - 1 < c2.classMaxValue := by
      intro c2 hc2
      have h1 : renderer.minValue - 1 < renderer.minValue := by linarith
      exact lt_of_lt_of_le h1 (hmin c2 hc2)
    have hfind : cbFind v (renderer.minValue - 1) renderer.classBreakInfos = some c :=
      cbFind_mem_eq v _ _ hsorted hprev c hc hv
    simp [searchRenderer, searchRendererRaw, hne1, hne2, htype, SIMPLE, UNIQUE_VALUE,
      CLASS_BREAKS, hattr, jsParseFloat, hnotlt, hfind, cbBranchResult]
  · intro hlast
    have hfind : cbFind v (renderer.minValue - 1) renderer.classBreakInfos = none := by
      cases hcb : renderer.classBreakInfos with
      | nil => rfl
      | cons a as =>
        rw [hcb] at hsorted hlast
        have hm : (a :: as).getLast? = some ((a :: as).getLast (by simp)) :=
          List.getLast?_eq_getLast _ _
        have hall : ∀ c ∈ a :: as, c.classMaxValue < v := by
          intro c hc
          exact lt_of_le_of_lt (le_getLast_max _ hsorted c hc _ hm)
            (hlast _ hm)
        exact cbFind_none_of_gt v _ _ hall
    by_cases hlt : v < renderer.minValue
    · simp [searchRenderer, searchRendererRaw, hne1, hne2, htype, SIMPLE, UNIQUE_VALUE,
        CLASS_BREAKS, hattr, jsParseFloat, hlt, rendererDefaultResult]
    · simp [searchRenderer, searchRendererRaw, hne1, hne2, htype, SIMPLE, UNIQUE_VALUE,
        CLASS_BREAKS, hattr, jsParseFloat, hlt, hfind, rendererDefaultResult]

def wCB2a : CBInfo Nat :=
  { classMaxValue := 20, label := "low", symbol := some 1,
    svgcode := some (SvgCode.code "s1") }

def wCB2b : CBInfo Nat :=
  { classMaxValue := 30, label := "high", symbol := some 2,
    svgcode := some (SvgCode.code "s2") }

def wRend2 : Renderer Nat :=
  { type := "classBreaks", field := "v", minValue := 10,
    classBreakInfos := [wCB2a, wCB2b], defaultSymbol := some 9 }

def wAttrs2 : String → JSVal := fun _ => JSVal.vNum 20

theorem claim_C2_witness :
    (wRend2.type = CLASS_BREAKS ∧
      wAttrs2 wRend2.field = JSVal.vNum 20 ∧
      List.Pairwise (fun a b => a.classMaxValue < b.classMaxValue)
        wRend2.classBreakInfos ∧
      (∀ c ∈ wRend2.classBreakInfos, wRend2.minValue ≤ c.classMaxValue)) ∧
    searchRenderer wAttrs2 wRend2 = cbBranchResult wCB2a :=
  ⟨⟨rfl, rfl, by decide, by decide⟩,
    (claim_C2 wAttrs2 wRend2 20 rfl rfl (by decide) (by decide)).2.1 wCB2a
      (List.mem_cons_self _ _) (by decide)⟩

/-! ### Claim C3 -/

/-- One loop iteration when the test at `currentLod` succeeds. -/
theorem zoomLoop_succ_pos (lods : List Lod) (t : Rat) (fuel low high cur : Nat)
    (h : qualB lods t cur = true) :
    zoomLoop lods t (fuel + 1) low high cur =
      if high = cur + 1 then some ((high + cur) / 2)
      else zoomLoop lods t fuel cur high ((high + cur) / 2) := by
  simp [zoomLoop, h]

/-- One loop iteration when the test at `currentLod` fails. -/
theorem zoomLoop_succ_neg (lods : List Lod) (t : Rat) (fuel low high cur : Nat)
    (h : qualB lods t cur = false) :
    zoomLoop lods t (fuel + 1) low high cur =
      if cur = low + 1 then some ((cur + low) / 2)
      else zoomLoop lods t fuel low cur ((cur + low) / 2) := by
  simp [zoomLoop, h]

/-- Loop invariant and fuel bound: starting from a window of width at most
`2 ^ k` whose current index is the floor midpoint, the loop terminates within
`k` iterations and returns an index bracketed by a passing test on its left
(or 0) and a failing test on its right (or the top of the range). -/
theorem zoomLoop_log (lods : List Lod) (t : Rat) :
    ∀ (k fuel low high : Nat),
      k ≤ fuel →
      low + 2 ≤ high →
      high ≤ lods.length - 1 →
      high - low ≤ 2 ^ k →
      (low = 0 ∨ qualB lods t low = true) →
      (high = lods.length - 1 ∨ qualB lods t high = false) →
      ∃ r, zoomLoop lods t fuel low high ((high + low) / 2) = some r ∧
        low ≤ r ∧ r + 1 ≤ high ∧
        (r = 0 ∨ qualB lods t r = true) ∧
        (r + 1 = lods.length - 1 ∨ qualB lods t (r + 1) = false) := by
  intro k
  induction k with
  | zero =>
    intro fuel low high _ hgap _ hle _ _
    simp only [pow_zero] at hle
    omega
  | succ k ih =>
    intro fuel low high hfuel hgap hhi hle hlow hhigh
    obtain ⟨f, rfl⟩ : ∃ f, fuel = f + 1 := ⟨fuel - 1, by omega⟩
    have hp2 : (2:Nat) ^ (k + 1) = 2 * 2 ^ k := by rw [pow_succ]; ring
    rw [hp2] at hle
    cases hq : qualB lods t ((high + low) / 2) with
    | true =>
      rw [zoomLoop_succ_pos lods t f low high _ hq]
      by_cases hterm : high = (high + low) / 2 + 1
      · rw [if_pos hterm]
        refine ⟨(high + (high + low) / 2) / 2, rfl, by omega, by omega, ?_, ?_⟩
        · right
          have hmid : (high + (high + low) / 2) / 2 = (high + low) / 2 := by omega
          rw [hmid]
          exact hq
        · rcases hhigh with h | h
          · left; omega
          · right
            have hmid : (high + (high + low) / 2) / 2 + 1 = high := by omega
            rw [hmid]
            exact h
      · rw [if_neg hterm]
        obtain ⟨r, hr, h1, h2, h3, h4⟩ :=
          ih f ((high + low) / 2) high (by omega) (by omega) hhi (by omega)
            (Or.inr hq) hhigh
        exact ⟨r, hr, by omega, h2, h3, h4⟩
    | false =>
      rw [zoomLoop_succ_neg lods t f low high _ hq]
      by_cases hterm : (high + low) / 2 = low + 1
      · rw [if_pos hterm]
        refine ⟨((high + low) / 2 + low) / 2, rfl, by omega, by omega, ?_, ?_⟩
        · have hmid : ((high + low) / 2 + low) / 2 = low := by omega
          rw [hmid]
          exact hlow
        · right
          have hmid : ((high + low) / 2 + low) / 2 + 1 = (high + low) / 2 := by omega
          rw [hmid]
          exact hq
      · rw [if_neg hterm]
        obtain ⟨r, hr, h1, h2, h3, h4⟩ :=
          ih f low ((high + low) / 2) (by omega) (by omega) (by omega) (by omega)
            hlow (Or.inr hq)
        exact ⟨r, hr, h1, by omega, h3, h4⟩

/-- A passing test means the indexed entry exists and qualifies. -/
theorem qualB_true_elim (lods : List Lod) (t : Rat) (i : Nat)
    (h : qualB lods t i = true) : ∃ l, lods.get? i = some l ∧ t ≤ l.scale := by
  unfold qualB at h
  cases hg : lods.get? i with
  | none => rw [hg] at h; cases h
  | some l =>
    rw [hg] at h
    exact ⟨l, rfl, by simpa using h⟩

/-- Over monotonically decreasing scales the passing indices are exactly the
prefix captured by `takeWhile`. -/
theorem qual_iff_lt_cnt (t : Rat) :
    ∀ (lods : List Lod),
      List.Pairwise (fun a b => b.scale ≤ a.scale) lods →
      ∀ i, i < lods.length →
        (qualB lods t i = true ↔
          i < (lods.takeWhile (fun l => decide (t ≤ l.scale))).length) := by
  intro lods
  induction lods with
  | nil => intro _ i hi; simp at hi
  | cons x xs ih =>
    intro hp i hi
    by_cases hx : t ≤ x.scale
    · rw [List.takeWhile_cons_of_pos (by simpa using hx)]
      cases i with
      | zero => simp [qualB, hx]
      | succ j =>
        have hj : j < xs.length := by simpa using hi
        have hstep := ih (List.pairwise_cons.mp hp).2 j hj
        have hqeq : qualB (x :: xs) t (j + 1) = qualB xs t j := rfl
        rw [hqeq, List.length_cons, Nat.succ_lt_succ_iff]
        exact hstep
    · rw [List.takeWhile_cons_of_neg (by simpa using hx)]
      simp only [List.length_nil]
      constructor
      · intro hq
        exfalso
        cases i with
        | zero =>
          have : t ≤ x.scale := by simpa [qualB] using hq
          exact hx this
        | succ j =>
          have hq2 : qualB xs t j = true := hq
          obtain ⟨l, hl, htl⟩ := qualB_true_elim xs t j hq2
          have hmem : l ∈ xs := List.get?_mem hl
          have hle : l.scale ≤ x.scale := (List.pairwise_cons.mp hp).1 l hmem
          exact hx (le_trans htl hle)
      · intro hlt
        exact absurd hlt (Nat.not_lt_zero i)

/-- Converting the loop's bracketing result into the closed form
`min (length - 2) (prefix count - 1)`. -/
theorem bracket_min (lods : List Lod) (t : Rat)
    (hdec : List.Pairwise (fun a b => b.scale ≤ a.scale) lods) (r : Nat)
    (h4 : 4 ≤ lods.length) (hr : r + 1 ≤ lods.length - 1)
    (hb1 : r = 0 ∨ qualB lods t r = true)
    (hb2 : r + 1 = lods.length - 1 ∨ qualB lods t (r + 1) = false) :
    r = min (lods.length - 2)
        ((lods.takeWhile (fun l => decide (t ≤ l.scale))).length - 1) := by
  set cnt := (lods.takeWhile (fun l => decide (t ≤ l.scale))).length with hcnt
  have hcntle : cnt ≤ lods.length := by
    rw [hcnt]
    exact List.Sublist.length_le (List.takeWhile_sublist _)
  have hiffr := qual_iff_lt_cnt t lods hdec r (by omega)
  have hiffr1 := qual_iff_lt_cnt t lods hdec (r + 1) (by omega)
  have hA : r = 0 ∨ r < cnt := by
    rcases hb1 with h | h
    · exact Or.inl h
    · exact Or.inr (hiffr.mp h)
  have hB : r + 1 = lods.length - 1 ∨ ¬ (r + 1 < cnt) := by
    rcases hb2 with h | h
    · exact Or.inl h
    · right
      intro hc
      rw [← hiffr1] at hc
      rw [h] at hc
      cases hc
  omega

/-- C3 (amended): for a LOD list of at least 4 entries with monotonically
decreasing scales and a nonzero target, `getZoomLevel` terminates within
`log2 n + 2` iterations and returns `min (n - 2) (m)`, where `m + 1` is the
number of leading entries whose scale is ≥ the target (so `m` is the largest
qualifying index, clamped to `n - 2`, and 0 when no entry qualifies). -/
theorem claim_C3 (lods : List Lod) (t : Rat) (h4 : 4 ≤ lods.length)
    (hdec : List.Pairwise (fun a b => b.scale ≤ a.scale) lods) (ht : t ≠ 0) :
    getZoomLevel lods t (Nat.log2 lods.length + 2) =
      some ((min (lods.length - 2)
        ((lods.takeWhile (fun l => decide (t ≤ l.scale))).length - 1) : Nat) : Int) := by
  have hlog : lods.length < 2 ^ (Nat.log2 lods.length + 1) := Nat.lt_log2_self
  have hp2 : (2:Nat) ^ (Nat.log2 lods.length + 1) = 2 * 2 ^ Nat.log2 lods.length := by
    rw [pow_succ]; ring
  rw [hp2] at hlog
  unfold getZoomLevel
  rw [if_neg ht]
  rw [show Nat.log2 lods.length + 2 = (Nat.log2 lods.length + 1) + 1 from rfl]
  cases hq : qualB lods t ((lods.length + 1) / 2) with
  | true =>
    rw [zoomLoop_succ_pos lods t _ 0 (lods.length - 1) _ hq]
    by_cases hterm : lods.length - 1 = (lods.length + 1) / 2 + 1
    · rw [if_pos hterm]
      have hmid : (lods.length - 1 + (lods.length + 1) / 2) / 2 =
          (lods.length + 1) / 2 := by omega
      rw [hmid]
      have hbr := bracket_min lods t hdec ((lods.length + 1) / 2) h4 (by omega)
        (Or.inr hq) (Or.inl (by omega))
      rw [hbr]
      rfl
    · rw [if_neg hterm]
      obtain ⟨r, hr, h1, h2, h3, hb2⟩ :=
        zoomLoop_log lods t (Nat.log2 lods.length) (Nat.log2 lods.length + 1)
          ((lods.length + 1) / 2) (lods.length - 1) (by omega) (by omega) (le_refl _)
          (by omega) (Or.inr hq) (Or.inl rfl)
      rw [hr]
      have hbr := bracket_min lods t hdec r h4 (by omega) h3 hb2
      rw [hbr]
      rfl
  | false =>
    rw [zoomLoop_succ_neg lods t _ 0 (lods.length - 1) _ hq]
    rw [if_neg (by omega : ¬ ((lods.length + 1) / 2 = 0 + 1))]
    obtain ⟨r, hr, h1, h2, h3, hb2⟩ :=
      zoomLoop_log lods t (Nat.log2 lods.length) (Nat.log2 lods.length + 1)
        0 ((lods.length + 1) / 2) (by omega) (by omega) (by omega) (by omega)
        (Or.inl rfl) (Or.inr hq)
    rw [hr]
    have hbr := bracket_min lods t hdec r h4 (by omega) h3 hb2
    rw [hbr]
    rfl

/-- On the stuck 3-entry state the loop never terminates: `lowLod`,
`highLod` and `currentLod` are all pinned at 2 and `highLod = lowLod + 1`
never holds. -/
theorem zoomLoop_stuck3 :
    ∀ fuel, zoomLoop [⟨1000⟩, ⟨500⟩, ⟨250⟩] 250 fuel 2 2 2 = none := by
  intro fuel
  induction fuel with
  | zero => rfl
  | succ f ih =>
    have hq : qualB [⟨1000⟩, ⟨500⟩, ⟨250⟩] 250 2 = true := by
      simp [qualB]
    rw [zoomLoop_succ_pos _ _ _ _ _ _ hq, if_neg (by omega)]
    simpa using ih

/-- C3 counterexample: a 3-entry strictly decreasing LOD list with nonzero
target 250 makes the loop run forever (1000 iterations produce no result,
far beyond any O(log 3) bound); and on a 4-entry decreasing list with target
100 the code returns index 2 — neither the first entry whose scale is ≥ 100
(index 0) nor the last such entry (index 3). -/
theorem claim_C3_counterexample :
    getZoomLevel [⟨1000⟩, ⟨500⟩, ⟨250⟩] 250 1000 = none ∧
    getZoomLevel [⟨1000⟩, ⟨500⟩, ⟨250⟩, ⟨100⟩] 100 10 = some 2 := by
  constructor
  · have hstart : getZoomLevel [⟨1000⟩, ⟨500⟩, ⟨250⟩] 250 1000 =
        (zoomLoop [⟨1000⟩, ⟨500⟩, ⟨250⟩] 250 1000 0 2 2).map (fun i => (i : Int)) := by
      norm_num [getZoomLevel]
    rw [hstart, show (1000:Nat) = 999 + 1 from rfl]
    have hq : qualB [⟨1000⟩, ⟨500⟩, ⟨250⟩] 250 2 = true := by
      simp [qualB]
    rw [zoomLoop_succ_pos _ _ _ _ _ _ hq, if_neg (by omega)]
    rw [show ((2:Nat) + 2) / 2 = 2 from rfl, zoomLoop_stuck3 999]
    rfl
  · have hstart : getZoomLevel [⟨1000⟩, ⟨500⟩, ⟨250⟩, ⟨100⟩] 100 10 =
        (zoomLoop [⟨1000⟩, ⟨500⟩, ⟨250⟩, ⟨100⟩] 100 10 0 3 2).map (fun i => (i : Int)) := by
      norm_num [getZoomLevel]
    rw [hstart, show (10:Nat) = 9 + 1 from rfl]
    have hq : qualB [⟨1000⟩, ⟨500⟩, ⟨250⟩, ⟨100⟩] 100 2 = true := by
      norm_num [qualB]
    rw [zoomLoop_succ_pos _ _ _ _ _ _ hq, if_pos rfl]
    rfl

def wLods3 : List Lod := [⟨10⟩, ⟨8⟩, ⟨6⟩, ⟨4⟩, ⟨2⟩]

theorem claim_C3_witness :
    (4 ≤ wLods3.length ∧
      List.Pairwise (fun a b => b.scale ≤ a.scale) wLods3 ∧ (7:Rat) ≠ 0) ∧
    getZoomLevel wLods3 7 (Nat.log2 wLods3.length + 2) =
      some ((min (wLods3.length - 2)
        ((wLods3.takeWhile (fun l => decide ((7:Rat) ≤ l.scale))).length - 1) : Nat) : Int) :=
  ⟨⟨by decide, by decide, by norm_num⟩,
    claim_C3 wLods3 7 (by decide) (by decide) (by norm_num)⟩
